import Mathlib

/-!
Shallow embedding of the transcription core of the biliSummaryCLI repository
(`src/core/transcriber.py` and `src/core/audio_processor.py`), together with
theorems settling the claims about its chunked-transcription pipeline.

Modelling conventions:
* The remote service, the filesystem probes and the external `ffmpeg`/`ffprobe`
  tools are oracles bundled in an `Env` record; a call that can raise a Python
  exception is an `Except String` value whose `error` carries `str(e)`.
* Python floats (durations, file sizes in MB, progress percentages) are
  modelled as rationals (`ℚ`); the comparisons the code performs are exact at
  these magnitudes.
* Observable side effects (progress-callback invocations, remote calls, task
  submissions, compression invocations, segment-file deletions) are recorded in
  an event trace returned alongside the result.
* Only the remote-API branch of `Transcriber.transcribe` is embedded: every
  claim under consideration concerns remote-model jobs.  The local-Whisper
  branch, which shares no code with the remote one, is out of scope.
-/

deriving instance DecidableEq for Except

namespace Bili


/-- Token-accounting record attached to a remote response, mirroring the
attributes the code reads with `getattr(u, field, 0)`; `none` models an absent
attribute. -/
structure ApiUsage where
  prompt_tokens : Option Nat
  input_tokens : Option Nat
  completion_tokens : Option Nat
  output_tokens : Option Nat
  total_tokens : Option Nat
deriving DecidableEq

/-- The running `total_usage` dictionary of `_transcribe_chunked`
(`{'prompt_tokens': .., 'completion_tokens': .., 'total_tokens': ..}`). -/
structure UsageTotals where
  prompt_tokens : Nat
  completion_tokens : Nat
  total_tokens : Nat
deriving DecidableEq

/-- Usage information carried by a returned result: the single-shot path passes
the service's raw usage object through, the chunked path returns the summed
`total_usage` dictionary. -/
inductive UsageInfo where
  | raw (u : ApiUsage)
  | totals (t : UsageTotals)
deriving DecidableEq

/-- The `transcript` object returned by one `client.audio.transcriptions.create`
call, as far as the code reads it (`text`, optional `language`, `duration`,
`usage` attributes). -/
structure RemoteResponse where
  text : String
  language : Option String
  duration : Option ℚ
  usage : Option ApiUsage
deriving DecidableEq

/-- The result dictionary `transcribe` returns.  `none` models an absent
dictionary key (the single-shot dict has no `segments` key, the chunked dict
has no `duration` key, `usage` is only set when present and truthy). -/
structure TranscriptionResult where
  text : String
  language : Option String
  duration : Option ℚ
  segments : Option (List Unit)
  usage : Option UsageInfo
deriving DecidableEq

/-- Observable effects of one job, in emission order.  `progress` is a
`progress_callback(pct, label)` invocation; `remoteCall` a single-shot
`transcriptions.create` call with the model and the file path it uploads;
`chunkSubmit` an `executor.submit(self._transcribe_part, i, ...)`;
`compressCall` a `compress_for_api` invocation; `splitCall` a `split_audio`
invocation; `removeFile` an `os.remove` of a segment file. -/
inductive Event where
  | progress (pct : ℚ) (label : String)
  | remoteCall (model : String) (path : String)
  | chunkSubmit (index : Nat) (model : String)
  | compressCall (path : String)
  | splitCall (path : String)
  | removeFile (path : String)
deriving DecidableEq

/-- Oracles for everything outside the embedded code.
* `existsF` models `os.path.exists`.
* `hasApiKey` models `self.api_key` being set (checked by `load_model`).
* `measure` is the outcome of the duration-measurement block at the top of the
  API branch (`AudioProcessor()` construction, `get_audio_duration`, and the
  `os.path.getsize` inside its log line): `ok d` means the block established
  duration `d`, `error e` means an exception escaped the block (and was then
  swallowed by its `except` clause).
* `getsize` models the `os.path.getsize` of the single-shot size check.
* `compressProbe` is the `ffprobe` run inside `compress_for_api`
  (`error` = subprocess/JSON failure, `ok none` = no `duration` field).
* `compressRun` is the `ffmpeg` compression run (`AudioProcessor()`
  construction failures in that block behave identically and are folded in).
* `remote` gives the outcome of one `transcriptions.create` call keyed by
  model and uploaded path.
* `splitRun` is the `ffmpeg -f segment` run of `split_audio` and `chunkFiles`
  the sorted glob of produced segment files.
* `parts` gives the outcome of `_transcribe_part` for segment index `i`, and
  `completionOrder` is the order in which `as_completed` yields the futures. -/
structure Env where
  existsF : String → Bool
  hasApiKey : Bool
  measure : Except String ℚ
  getsize : String → Except String Nat
  compressProbe : Except String (Option ℚ)
  compressRun : Except String Unit
  remote : String → String → Except String RemoteResponse
  splitRun : Except String Unit
  chunkFiles : List String
  parts : Nat → Except String (String × Option ApiUsage)
  completionOrder : List Nat

/-- Boolean success test on an `Except` value, used in hypotheses. -/
def exceptOk {ε α : Type} : Except ε α → Bool
  | Except.ok _ => true
  | Except.error _ => false

/-- Python's `a or b` on numbers read with `getattr(_, _, 0)`: take `a` unless
it is falsy (zero). -/
def pyOr (a b : Nat) : Nat := if a ≠ 0 then a else b

/-- Reads `getattr(u, 'prompt_tokens', 0) or getattr(u, 'input_tokens', 0)`. -/
def effPrompt (u : ApiUsage) : Nat := pyOr (u.prompt_tokens.getD 0) (u.input_tokens.getD 0)

/-- Reads `getattr(u, 'completion_tokens', 0) or getattr(u, 'output_tokens', 0)`. -/
def effCompletion (u : ApiUsage) : Nat := pyOr (u.completion_tokens.getD 0) (u.output_tokens.getD 0)

/-- Effective prompt tokens of an optional usage record (`0` when the segment
carried no usage object). -/
def effPromptOf : Option ApiUsage → Nat
  | none => 0
  | some u => effPrompt u

/-- Effective completion tokens of an optional usage record. -/
def effCompletionOf : Option ApiUsage → Nat
  | none => 0
  | some u => effCompletion u

/-- Reads `getattr(u, 'total_tokens', 0)` of an optional usage record: the total
the service actually reported, `0` when absent. -/
def reportedTotalOf : Option ApiUsage → Nat
  | none => 0
  | some u => u.total_tokens.getD 0

/-- The `if data['usage']:` accumulation step of `_transcribe_chunked`. -/
def addUsage (acc : UsageTotals) : Option ApiUsage → UsageTotals
  | none => acc
  | some u =>
      { prompt_tokens := acc.prompt_tokens + effPrompt u
        completion_tokens := acc.completion_tokens + effCompletion u
        total_tokens := acc.total_tokens + u.total_tokens.getD 0 }

/-- Substring test on character lists (Python's `needle in hay`). -/
def charsContain (needle hay : List Char) : Bool :=
  (List.range (hay.length + 1)).any (fun i => needle.isPrefixOf (hay.drop i))

/-- Python's `needle in hay` on strings. -/
def strContains (hay needle : String) : Bool := charsContain needle.data hay.data

/-- The error classification of the single-shot `except` handler:
`"input_too_large" in error_str or "maximum context" in error_str`. -/
def isTooLarge (e : String) : Bool :=
  strContains e "input_too_large" || strContains e "maximum context"

/-- Computes `os.path.splitext(p)[0]`: the path without its final extension.  Modelled
for paths whose basename has at most one leading dot (every path the code
builds is of this form). -/
def splitextBase (p : String) : String :=
  let cs := p.data
  let idx := (List.range cs.length).foldl
    (fun (acc : Option Nat × Option Nat) i =>
      match cs.getD i ' ' with
      | '.' => (some i, acc.2)
      | '/' => (acc.1, some i)
      | _ => acc) (none, none)
  match idx with
  | (some d, slash) =>
      let basenameStart := match slash with | some s => s + 1 | none => 0
      if basenameStart < d then String.mk (cs.take d) else p
  | (none, _) => p

/-- Embeds `AudioProcessor._get_audio_duration`: parse the `ffprobe` JSON, defaulting
to `0` for a missing `duration` field, and return `0` on any exception. -/
def get_audio_duration (probe : Except String (Option ℚ)) : ℚ :=
  match probe with
  | Except.error _ => 0
  | Except.ok d => d.getD 0

/-- Embeds `AudioProcessor.compress_for_api` (with its default `max_size_mb = 24`):
check existence, derive the output path, compute the clamped target bitrate
from the measured duration, run `ffmpeg`, and either return the compressed
path or raise `压缩失败`.  The source formats numbers with Python f-strings;
labels here render them with `toString`, which no claim inspects. -/
def compress_for_api (existsF : String → Bool) (probe : Except String (Option ℚ))
    (run : Except String Unit) (input_path : String) :
    Except String String × List Event :=
  if existsF input_path = false then
    (Except.error ("音频文件不存在: " ++ input_path), [Event.compressCall input_path])
  else
    let output_path := splitextBase input_path ++ "_compressed.mp3"
    let duration := get_audio_duration probe
    let bitrate_kbps : ℤ :=
      if duration ≤ 0 then 32
      else min (max ⌊(24 * 1024 * 1024 * 8 : ℚ) / duration / 1000⌋ 12) 64
    let ev := [Event.compressCall input_path,
               Event.progress 62 ("正在压缩音频以适应 API 限制 (目标码率: " ++ toString bitrate_kbps ++ "k)...")]
    match run with
    | Except.ok _ => (Except.ok output_path, ev)
    | Except.error msg => (Except.error ("压缩失败: " ++ msg), ev)

/-- Embeds `AudioProcessor.split_audio`: existence check, `ffmpeg -f segment` run,
then the sorted glob of the produced chunk files. -/
def split_audio (existsF : String → Bool) (run : Except String Unit)
    (globFiles : List String) (input_path : String) : Except String (List String) :=
  if existsF input_path = false then Except.error ("音频文件不存在: " ++ input_path)
  else
    match run with
    | Except.error msg => Except.error ("音频切片失败: " ++ msg)
    | Except.ok _ => Except.ok globFiles

/-- The message of the exception `_transcribe_chunked` raises when segment
`index` (0-based) fails: it wraps the 1-based position and `str(e)`. -/
def chunkFailMsg (index : Nat) (msg : String) : String :=
  "片段 " ++ toString (index + 1) ++ " 转写失败，流程终止。错误: " ++ msg

/-- The percentage `85 + (completed_count / total_chunks) * 14` reported while
collecting chunk results. -/
def loopPct (n m : Nat) : ℚ := 85 + ((m : ℚ) / (n : ℚ)) * 14

/-- The progress event emitted after the `m`-th completed chunk of `n`. -/
def loopProg (n m : Nat) : Event :=
  Event.progress (loopPct n m) ("并发转写中... (" ++ toString m ++ "/" ++ toString n ++ ")")

/-- The `as_completed` collection loop of `_transcribe_chunked`: walk the
futures in completion order, record each text in its index slot, accumulate
usage, report progress, and raise `chunkFailMsg` at the first failed segment. -/
def collectLoop (parts : Nat → Except String (String × Option ApiUsage)) (n : Nat) :
    List Nat → List (Option String) → UsageTotals → Nat →
    Except String (List (Option String) × UsageTotals) × List Event
  | [], slots, acc, _ => (Except.ok (slots, acc), [])
  | i :: rest, slots, acc, completed =>
    match parts i with
    | Except.error msg => (Except.error (chunkFailMsg i msg), [])
    | Except.ok du =>
      let c2 := completed + 1
      let r := collectLoop parts n rest (slots.set i (some du.1)) (addUsage acc du.2) c2
      (r.1, loopProg n c2 :: r.2)

/-- Embeds `Transcriber._transcribe_chunked`: split the audio into 298-second chunks,
submit every chunk to the worker pool, collect results by index slot, delete
every existing chunk file once the batch resolves (success or failure), and on
success join the slots with a double newline, echoing the requested language
with an empty segment list and the accumulated usage. -/
def transcribe_chunked (env : Env) (audio_path model_name : String) (language : Option String) :
    Except String TranscriptionResult × List Event :=
  let ev0 : List Event := [Event.progress 84 "正在进行智能切片 (每段 298s)...",
                           Event.splitCall audio_path]
  match split_audio env.existsF env.splitRun env.chunkFiles audio_path with
  | Except.error e => (Except.error e, ev0)
  | Except.ok chunks =>
    let n := chunks.length
    let submits := (List.range n).map (fun i => Event.chunkSubmit i model_name)
    let lp := collectLoop env.parts n env.completionOrder (List.replicate n none) ⟨0, 0, 0⟩ 0
    let cleanup := chunks.filterMap
      (fun c => if env.existsF c then some (Event.removeFile c) else none)
    match lp.1 with
    | Except.error e => (Except.error e, ev0 ++ submits ++ lp.2 ++ cleanup)
    | Except.ok st =>
        (Except.ok { text := String.intercalate "\n\n" (st.1.map (fun o => o.getD ""))
                     language := language
                     duration := none
                     segments := some []
                     usage := some (UsageInfo.totals st.2) },
         ev0 ++ submits ++ lp.2 ++ cleanup ++ [Event.progress 99 "所有片段转写成功，已合并"])

/-- The `should_chunk` flag computed by the duration-measurement block:
`False` whenever an exception escaped the block, otherwise `duration > 298`. -/
def shouldChunk (measure : Except String ℚ) : Bool :=
  match measure with
  | Except.error _ => false
  | Except.ok d => decide (298 < d)

/-- The result dictionary built from a successful primary single-shot call
(`language`/`duration` read with `getattr` defaults, `usage` only when the
response carries a truthy usage object). -/
def mkApiResult (resp : RemoteResponse) : TranscriptionResult :=
  { text := resp.text
    language := some (resp.language.getD "auto")
    duration := some (resp.duration.getD 0)
    segments := none
    usage := resp.usage.map UsageInfo.raw }

/-- The result dictionary built from a successful `whisper-1` fallback call
(the code does not copy `usage` on this path). -/
def mkFallbackResult (resp : RemoteResponse) : TranscriptionResult :=
  { text := resp.text
    language := some (resp.language.getD "auto")
    duration := some (resp.duration.getD 0)
    segments := none
    usage := none }

/-- Label of the `progress_callback(85, ...)` upload notice. -/
def uploadingLabel (model : String) : String :=
  "正在上传至 OpenAI API 转写 (模型: " ++ model ++ ")..."

/-- Label of the `progress_callback(83, ...)` oversize notice; the source
renders the size in MB with one decimal. -/
def oversizeLabel (sz : Nat) : String :=
  "音频文件过大 (" ++ toString ((sz : ℚ) / (1024 * 1024)) ++ "MB)，正在压缩..."

/-- The `try` block of the single-shot path: emit the upload notice, compress
when the file exceeds 24 MB (swallowing compression failures and keeping the
original path), then issue the primary remote call.  Returns the block's
outcome, its events, and the value of `audio_path` at the point the block
ended (the `except` handler reuses that variable). -/
def singleShotAttempt (env : Env) (path model : String) :
    Except String TranscriptionResult × List Event × String :=
  let ev0 : List Event := [Event.progress 85 (uploadingLabel model)]
  match env.getsize path with
  | Except.error e => (Except.error e, (ev0, path))
  | Except.ok sz =>
    let sizeMB : ℚ := (sz : ℚ) / (1024 * 1024)
    let step : List Event × String :=
      if 24 < sizeMB then
        let evBig := [Event.progress 83 (oversizeLabel sz)]
        match compress_for_api env.existsF env.compressProbe env.compressRun path with
        | (Except.ok newPath, cev) => (evBig ++ cev, newPath)
        | (Except.error _, cev) => (evBig ++ cev, path)
      else ([], path)
    match env.remote model step.2 with
    | Except.ok resp =>
        (Except.ok (mkApiResult resp),
         (ev0 ++ step.1 ++ [Event.remoteCall model step.2, Event.progress 99 "API 转写完成"],
          step.2))
    | Except.error e =>
        (Except.error e, (ev0 ++ step.1 ++ [Event.remoteCall model step.2], step.2))

/-- The single-shot path with its `except` handler: payload-too-large errors
escalate to `_transcribe_chunked` on the current path; other errors retry once
against `whisper-1` unless that already is the model, consolidating only the
fallback's failure text into the raised error. -/
def singleShot (env : Env) (path model : String) (language : Option String) :
    Except String TranscriptionResult × List Event :=
  let a := singleShotAttempt env path model
  match a.1 with
  | Except.ok r => (Except.ok r, a.2.1)
  | Except.error e =>
    if isTooLarge e then
      let p := transcribe_chunked env a.2.2 model language
      (p.1, a.2.1 ++ p.2)
    else if model ≠ "whisper-1" then
      match env.remote "whisper-1" a.2.2 with
      | Except.ok resp =>
          (Except.ok (mkFallbackResult resp), a.2.1 ++ [Event.remoteCall "whisper-1" a.2.2])
      | Except.error e2 =>
          (Except.error ("OpenAI API 转写失败 (回退也失败): " ++ e2),
           a.2.1 ++ [Event.remoteCall "whisper-1" a.2.2])
    else (Except.error ("OpenAI API 转写失败: " ++ e), a.2.1)

/-- Label of the `progress_callback(83, ...)` notice before duration-triggered
chunking (the source renders the duration with one decimal). -/
def chunkNoticeLabel (d : ℚ) : String :=
  "正在进行分段转写 (总长 " ++ toString d ++ "s)..."

/-- The remote-API branch of `Transcriber.transcribe`: existence and API-key
checks, the duration-measurement block deciding `should_chunk`, then either
the Chunk Dispatcher or the single-shot path. -/
def transcribeApi (env : Env) (path model : String) (language : Option String) :
    Except String TranscriptionResult × List Event :=
  if env.existsF path = false then (Except.error ("音频文件不存在: " ++ path), [])
  else if env.hasApiKey = false then (Except.error "使用在线转写模型需要提供 API Key", [])
  else
    let inner :=
      match env.measure with
      | Except.ok d =>
        if 298 < d then
          let p := transcribe_chunked env path model language
          (p.1, Event.progress 83 (chunkNoticeLabel d) :: p.2)
        else singleShot env path model language
      | Except.error _ => singleShot env path model language
    (inner.1, Event.progress 82 "开始语音转写..." :: inner.2)

/-- The percentage of a progress event, `none` for other events. -/
def pctOf : Event → Option ℚ
  | Event.progress p _ => some p
  | _ => none

/-- The sequence of percentages a trace reports through the progress
callback, in emission order. -/
def progressPcts (tr : List Event) : List ℚ := tr.filterMap pctOf

/-- Whether an event is a transcription attempt (a single-shot remote call or
a submitted chunk task). -/
def isAttempt : Event → Bool
  | Event.remoteCall _ _ => true
  | Event.chunkSubmit _ _ => true
  | _ => false

/-- Number of transcription attempts recorded in a trace. -/
def transcriptionAttempts (tr : List Event) : Nat := (tr.filter isAttempt).length

/-- Whether an event is a compression invocation. -/
def isCompress : Event → Bool
  | Event.compressCall _ => true
  | _ => false

/-- The text of segment `i`'s result (meaningful when the part succeeded). -/
def partText (parts : Nat → Except String (String × Option ApiUsage)) (i : Nat) : String :=
  match parts i with
  | Except.ok du => du.1
  | Except.error _ => ""

/-- The usage record of segment `i`'s result. -/
def partUsage (parts : Nat → Except String (String × Option ApiUsage)) (i : Nat) :
    Option ApiUsage :=
  match parts i with
  | Except.ok du => du.2
  | Except.error _ => none

/-- Componentwise sums of the per-segment usage of segments `0..n-1`. -/
def sumUsage (parts : Nat → Except String (String × Option ApiUsage)) (n : Nat) : UsageTotals :=
  { prompt_tokens := ((List.range n).map (fun i => effPromptOf (partUsage parts i))).sum
    completion_tokens := ((List.range n).map (fun i => effCompletionOf (partUsage parts i))).sum
    total_tokens := ((List.range n).map (fun i => reportedTotalOf (partUsage parts i))).sum }

/-- Length of the longest all-successful prefix of a completion order: the
number of chunk results the collection loop records before stopping. -/
def okPrefixLen (parts : Nat → Except String (String × Option ApiUsage)) : List Nat → Nat
  | [] => 0
  | i :: rest =>
    match parts i with
    | Except.error _ => 0
    | Except.ok _ => okPrefixLen parts rest + 1

/-- The path the `except` handler works with after a compression attempt:
the compressed path on success, the original on (swallowed) failure. -/
def usedPath (cres : Except String String) (orig : String) : String :=
  match cres with
  | Except.ok p => p
  | Except.error _ => orig

def isSplit : Event → Bool
  | Event.splitCall _ => true
  | _ => false

/-- Neutral oracle assignment used as the base of the concrete scenarios. -/
def baseEnv : Env :=
  { existsF := fun _ => true
    hasApiKey := true
    measure := Except.ok 100
    getsize := fun _ => Except.ok 1000000
    compressProbe := Except.ok (some 100)
    compressRun := Except.ok ()
    remote := fun _ _ => Except.ok { text := "T", language := none, duration := none, usage := none }
    splitRun := Except.ok ()
    chunkFiles := []
    parts := fun _ => Except.ok ("", none)
    completionOrder := [] }

/-- Scenario for C1: two segments, the first fails. -/
def envC1 : Env :=
  { baseEnv with
    chunkFiles := ["c0", "c1"]
    parts := fun i => if i = 0 then Except.error "boom" else Except.ok ("t1", none)
    completionOrder := [0, 1] }

/-- Scenario for C2: two successful segments collected in reversed order. -/
def envC2 : Env :=
  { baseEnv with
    chunkFiles := ["a", "b"]
    parts := fun i => if i = 0 then Except.ok ("hello", none) else Except.ok ("world", none)
    completionOrder := [1, 0] }

/-- Scenario for C3 at exactly the threshold. -/
def envC3a : Env := { baseEnv with measure := Except.ok 298 }

/-- Scenario for C3 just above the threshold. -/
def envC3b : Env := { baseEnv with measure := Except.ok (2981 / 10) }

/-- Scenario for C4: both the primary model and the fallback fail, with
distinct diagnostic messages. -/
def envC4 : Env :=
  { baseEnv with
    remote := fun m _ => if m = "whisper-1" then Except.error "FALLBACK_BOOM"
              else Except.error "PRIMARY_BOOM" }

/-- Scenario for C5: two segments whose usage records carry prompt and
completion counts but no total. -/
def envC5 : Env :=
  { baseEnv with
    chunkFiles := ["c0", "c1"]
    parts := fun i =>
      if i = 0 then Except.ok ("A", some ⟨some 10, none, some 5, none, none⟩)
      else Except.ok ("B", some ⟨some 7, none, some 3, none, none⟩)
    completionOrder := [0, 1] }

/-- Scenario for the C5 witness: usage records exercising also the
`input_tokens`/`output_tokens` fallback field names and a reported total. -/
def envC5w : Env :=
  { baseEnv with
    chunkFiles := ["c0", "c1"]
    parts := fun i =>
      if i = 0 then Except.ok ("A", some ⟨some 2, none, some 3, none, some 7⟩)
      else Except.ok ("B", some ⟨none, some 4, none, some 1, none⟩)
    completionOrder := [1, 0] }

/-- Scenario for C6: a short, small file whose upload is rejected as too
large, with a one-segment chunked recovery available. -/
def envC6 : Env :=
  { baseEnv with
    remote := fun _ p =>
      if p = "a.mp3" then Except.error "input_too_large: request rejected"
      else Except.ok { text := "REC", language := none, duration := none, usage := none }
    chunkFiles := ["c0"]
    parts := fun _ => Except.ok ("rec", none)
    completionOrder := [0] }

/-- Scenario for the C7 counterexample: `whisper-1` itself fails with a
payload-too-large error and a two-segment chunked recovery succeeds. -/
def envC7 : Env :=
  { baseEnv with
    remote := fun _ _ => Except.error "input_too_large: request rejected"
    chunkFiles := ["c0", "c1"]
    parts := fun i => if i = 0 then Except.ok ("x", none) else Except.ok ("y", none)
    completionOrder := [0, 1] }

/-- Scenario for the C7 witness: `whisper-1` fails with an ordinary error. -/
def envC7w : Env :=
  { baseEnv with remote := fun _ _ => Except.error "SERVICE_DOWN" }

/-- Scenario for the C8 counterexample: a 30 MB input whose compression run
fails, so the original file is uploaded. -/
def envC8 : Env :=
  { baseEnv with
    getsize := fun _ => Except.ok 31457280
    compressRun := Except.error "ffmpeg exploded" }

/-- Scenario for the C8 witness: a 30 MB input with a working compressor. -/
def envC8w : Env :=
  { baseEnv with getsize := fun _ => Except.ok 31457280 }

/-- Scenario for the C9 counterexample: the size-triggered compression path
of a single-shot job. -/
def envC9 : Env :=
  { baseEnv with getsize := fun _ => Except.ok 31457280 }

/-- Scenario for the C9 witness, chunked path: duration 300 s with two
successful segments. -/
def envC9a : Env :=
  { baseEnv with
    measure := Except.ok 300
    chunkFiles := ["c0", "c1"]
    parts := fun i => if i = 0 then Except.ok ("x", none) else Except.ok ("y", none)
    completionOrder := [1, 0] }

/-- Scenario for the C9 witness, plain single-shot path. -/
def envC9b : Env := baseEnv

/-- Scenario for C10: the duration-measurement block raises. -/
def envC10 : Env := { baseEnv with measure := Except.error "ffprobe failed" }

theorem collectLoop_ok_spec (parts : Nat → Except String (String × Option ApiUsage)) (n : Nat) :
    ∀ (order : List Nat) (slots : List (Option String)) (acc : UsageTotals) (c : Nat),
      (∀ i ∈ order, exceptOk (parts i) = true) →
      (collectLoop parts n order slots acc c).1 =
        Except.ok (order.foldl (fun s i => s.set i (some (partText parts i))) slots,
                   order.foldl (fun a i => addUsage a (partUsage parts i)) acc)
  | [], _, _, _, _ => rfl
  | i :: rest, slots, acc, c, h => by
    have hi : exceptOk (parts i) = true := h i (List.mem_cons_self i rest)
    match hp : parts i with
    | Except.error m => simp [exceptOk, hp] at hi
    | Except.ok du =>
      have hrec := collectLoop_ok_spec parts n rest (slots.set i (some du.1))
        (addUsage acc du.2) (c + 1) (fun j hj => h j (List.mem_cons_of_mem _ hj))
      simp only [collectLoop, hp, List.foldl_cons]
      rw [hrec]
      simp [partText, partUsage, hp]

theorem collectLoop_fail_spec (parts : Nat → Except String (String × Option ApiUsage)) (n : Nat) :
    ∀ (order : List Nat) (slots : List (Option String)) (acc : UsageTotals) (c : Nat),
      (∃ i ∈ order, exceptOk (parts i) = false) →
      ∃ j m, j ∈ order ∧ parts j = Except.error m ∧
        (collectLoop parts n order slots acc c).1 = Except.error (chunkFailMsg j m)
  | [], _, _, _, h => absurd h (by simp)
  | i :: rest, slots, acc, c, h => by
    match hp : parts i with
    | Except.error m =>
      exact ⟨i, m, List.mem_cons_self i rest, hp, by simp [collectLoop, hp]⟩
    | Except.ok du =>
      have hex : ∃ j ∈ rest, exceptOk (parts j) = false := by
        obtain ⟨j, hj, hfj⟩ := h
        rcases List.mem_cons.mp hj with hji | hjr
        · subst hji; simp [exceptOk, hp] at hfj
        · exact ⟨j, hjr, hfj⟩
      obtain ⟨j, m, hj, hje, heq⟩ := collectLoop_fail_spec parts n rest
        (slots.set i (some du.1)) (addUsage acc du.2) (c + 1) hex
      exact ⟨j, m, List.mem_cons_of_mem _ hj, hje, by simp [collectLoop, hp, heq]⟩

theorem collectLoop_events (parts : Nat → Except String (String × Option ApiUsage)) (n : Nat) :
    ∀ (order : List Nat) (slots : List (Option String)) (acc : UsageTotals) (c : Nat),
      (collectLoop parts n order slots acc c).2 =
        (List.range (okPrefixLen parts order)).map (fun k => loopProg n (c + k + 1))
  | [], _, _, _ => by simp [collectLoop, okPrefixLen]
  | i :: rest, slots, acc, c => by
    match hp : parts i with
    | Except.error m => simp [collectLoop, okPrefixLen, hp]
    | Except.ok du =>
      have hrec := collectLoop_events parts n rest (slots.set i (some du.1))
        (addUsage acc du.2) (c + 1)
      simp only [collectLoop, hp, okPrefixLen, hrec, List.range_succ_eq_map, List.map_cons,
        List.map_map]
      congr 1
      apply List.map_congr_left
      intro k _
      simp only [Function.comp, Nat.succ_eq_add_one]
      congr 1
      omega

theorem okPrefixLen_le (parts : Nat → Except String (String × Option ApiUsage)) :
    ∀ (order : List Nat), okPrefixLen parts order ≤ order.length
  | [] => Nat.le_refl 0
  | i :: rest => by
    match hp : parts i with
    | Except.error m => simp [okPrefixLen, hp]
    | Except.ok du =>
      simp only [okPrefixLen, hp, List.length_cons]
      exact Nat.succ_le_succ (okPrefixLen_le parts rest)

theorem foldl_set_length (g : Nat → Option String) :
    ∀ (order : List Nat) (slots : List (Option String)),
      (order.foldl (fun s j => s.set j (g j)) slots).length = slots.length
  | [], _ => rfl
  | i :: rest, slots => by
    simp only [List.foldl_cons]
    rw [foldl_set_length g rest (slots.set i (g i)), List.length_set]

theorem foldl_set_not_mem (g : Nat → Option String) :
    ∀ (order : List Nat) (slots : List (Option String)) (i : Nat), i ∉ order →
      (order.foldl (fun s j => s.set j (g j)) slots)[i]? = slots[i]?
  | [], _, _, _ => rfl
  | j :: rest, slots, i, h => by
    have hij : j ≠ i := fun e => h (e ▸ List.mem_cons_self j rest)
    have hr : i ∉ rest := fun hi => h (List.mem_cons_of_mem _ hi)
    simp only [List.foldl_cons]
    rw [foldl_set_not_mem g rest _ i hr, List.getElem?_set_ne hij]

theorem foldl_set_mem (g : Nat → Option String) :
    ∀ (order : List Nat) (slots : List (Option String)) (i : Nat),
      i ∈ order → i < slots.length →
      (order.foldl (fun s j => s.set j (g j)) slots)[i]? = some (g i)
  | [], _, _, h, _ => absurd h (List.not_mem_nil _)
  | j :: rest, slots, i, h, hlt => by
    simp only [List.foldl_cons]
    by_cases hr : i ∈ rest
    · exact foldl_set_mem g rest _ i hr (by rw [List.length_set]; exact hlt)
    · have hij : i = j := by
        rcases List.mem_cons.mp h with h1 | h2
        · exact h1
        · exact absurd h2 hr
      subst hij
      rw [foldl_set_not_mem g rest _ i hr]
      rw [List.getElem?_set_self (by exact hlt)]

theorem foldl_set_perm (g : Nat → Option String) (n : Nat) (order : List Nat)
    (hperm : order.Perm (List.range n)) :
    order.foldl (fun s j => s.set j (g j)) (List.replicate n (none : Option String)) =
      (List.range n).map g := by
  apply List.ext_getElem?
  intro i
  by_cases hi : i < n
  · have hmem : i ∈ order := hperm.mem_iff.mpr (List.mem_range.mpr hi)
    rw [foldl_set_mem g order _ i hmem (by rw [List.length_replicate]; exact hi)]
    rw [List.getElem?_map, List.getElem?_range hi]
    rfl
  · rw [List.getElem?_eq_none, List.getElem?_eq_none]
    · rw [List.length_map, List.length_range]; omega
    · rw [foldl_set_length, List.length_replicate]; omega

theorem addUsage_eq (acc : UsageTotals) (u : Option ApiUsage) :
    addUsage acc u =
      ⟨acc.prompt_tokens + effPromptOf u, acc.completion_tokens + effCompletionOf u,
       acc.total_tokens + reportedTotalOf u⟩ := by
  cases u with
  | none => simp [addUsage, effPromptOf, effCompletionOf, reportedTotalOf]
  | some w => rfl

theorem foldl_addUsage (f : Nat → Option ApiUsage) :
    ∀ (order : List Nat) (acc : UsageTotals),
      order.foldl (fun a i => addUsage a (f i)) acc =
        ⟨acc.prompt_tokens + (order.map (fun i => effPromptOf (f i))).sum,
         acc.completion_tokens + (order.map (fun i => effCompletionOf (f i))).sum,
         acc.total_tokens + (order.map (fun i => reportedTotalOf (f i))).sum⟩
  | [], acc => by simp
  | i :: rest, acc => by
    simp only [List.foldl_cons, List.map_cons, List.sum_cons]
    rw [foldl_addUsage f rest (addUsage acc (f i)), addUsage_eq]
    simp only [UsageTotals.mk.injEq]
    omega

theorem split_audio_ok (existsF : String → Bool) (files : List String) (p : String)
    (hex : existsF p = true) :
    split_audio existsF (Except.ok ()) files p = Except.ok files := by
  simp [split_audio, hex]

theorem chunked_ok_spec (env : Env) (path model : String) (lang : Option String)
    (hex : env.existsF path = true) (hrun : env.splitRun = Except.ok ())
    (hperm : env.completionOrder.Perm (List.range env.chunkFiles.length))
    (hok : ∀ i < env.chunkFiles.length, exceptOk (env.parts i) = true) :
    (transcribe_chunked env path model lang).1 =
      Except.ok
        { text := String.intercalate "\n\n"
            ((List.range env.chunkFiles.length).map (partText env.parts))
          language := lang
          duration := none
          segments := some []
          usage := some (UsageInfo.totals (sumUsage env.parts env.chunkFiles.length)) } := by
  have horder : ∀ i ∈ env.completionOrder, exceptOk (env.parts i) = true := by
    intro i hi
    exact hok i (List.mem_range.mp (hperm.mem_iff.mp hi))
  have h1 := collectLoop_ok_spec env.parts env.chunkFiles.length env.completionOrder
    (List.replicate env.chunkFiles.length none) ⟨0, 0, 0⟩ 0 horder
  have hslots := foldl_set_perm (fun i => some (partText env.parts i))
    env.chunkFiles.length env.completionOrder hperm
  have hacc := foldl_addUsage (fun i => partUsage env.parts i) env.completionOrder ⟨0, 0, 0⟩
  have hsum : (env.completionOrder.foldl (fun a i => addUsage a (partUsage env.parts i)) ⟨0, 0, 0⟩)
      = sumUsage env.parts env.chunkFiles.length := by
    rw [hacc]
    have hp := (hperm.map (fun i => effPromptOf (partUsage env.parts i))).sum_eq
    have hc := (hperm.map (fun i => effCompletionOf (partUsage env.parts i))).sum_eq
    have ht := (hperm.map (fun i => reportedTotalOf (partUsage env.parts i))).sum_eq
    simp only [sumUsage, UsageTotals.mk.injEq]
    refine ⟨by rw [hp]; omega, by rw [hc]; omega, by rw [ht]; omega⟩
  simp only [] at hslots
  simp only [transcribe_chunked, hrun, split_audio_ok env.existsF env.chunkFiles path hex]
  rw [h1, hslots, hsum]
  simp only [List.map_map]
  congr 2

theorem chunked_cleanup (env : Env) (path model : String) (lang : Option String)
    (hex : env.existsF path = true) (hrun : env.splitRun = Except.ok ()) :
    ∀ c ∈ env.chunkFiles, env.existsF c = true →
      Event.removeFile c ∈ (transcribe_chunked env path model lang).2 := by
  intro c hc hcex
  have hclean : Event.removeFile c ∈ env.chunkFiles.filterMap
      (fun c => if env.existsF c then some (Event.removeFile c) else none) := by
    exact List.mem_filterMap.mpr ⟨c, hc, by rw [hcex]; simp⟩
  simp only [transcribe_chunked, hrun, split_audio_ok env.existsF env.chunkFiles path hex]
  rcases hres : (collectLoop env.parts env.chunkFiles.length env.completionOrder
      (List.replicate env.chunkFiles.length none) ⟨0, 0, 0⟩ 0).1 with e | st
  · simp only [hres, List.mem_append]
    tauto
  · simp only [hres, List.mem_append]
    tauto

theorem chunked_fail_spec (env : Env) (path model : String) (lang : Option String)
    (hex : env.existsF path = true) (hrun : env.splitRun = Except.ok ())
    (hperm : env.completionOrder.Perm (List.range env.chunkFiles.length))
    (hfail : ∃ i < env.chunkFiles.length, exceptOk (env.parts i) = false) :
    ∃ j m, j < env.chunkFiles.length ∧ env.parts j = Except.error m ∧
      (transcribe_chunked env path model lang).1 = Except.error (chunkFailMsg j m) := by
  obtain ⟨i, hi, hfi⟩ := hfail
  have hmem : i ∈ env.completionOrder := hperm.mem_iff.mpr (List.mem_range.mpr hi)
  obtain ⟨j, m, hj, hje, heq⟩ := collectLoop_fail_spec env.parts env.chunkFiles.length
    env.completionOrder (List.replicate env.chunkFiles.length none) ⟨0, 0, 0⟩ 0 ⟨i, hmem, hfi⟩
  refine ⟨j, m, List.mem_range.mp (hperm.mem_iff.mp hj), hje, ?_⟩
  simp only [transcribe_chunked, hrun, split_audio_ok env.existsF env.chunkFiles path hex, heq]

theorem progressPcts_append (a b : List Event) :
    progressPcts (a ++ b) = progressPcts a ++ progressPcts b :=
  List.filterMap_append a b pctOf

theorem progressPcts_submits (n : Nat) (model : String) :
    progressPcts ((List.range n).map (fun i => Event.chunkSubmit i model)) = [] := by
  apply List.filterMap_eq_nil_iff.mpr
  intro e he
  obtain ⟨i, _, hi⟩ := List.mem_map.mp he
  rw [← hi]
  rfl

theorem progressPcts_cleanup (existsF : String → Bool) (chunks : List String) :
    progressPcts (chunks.filterMap
      (fun c => if existsF c then some (Event.removeFile c) else none)) = [] := by
  apply List.filterMap_eq_nil_iff.mpr
  intro e he
  obtain ⟨c, _, hc⟩ := List.mem_filterMap.mp he
  by_cases hcx : existsF c
  · rw [hcx] at hc
    simp only [if_pos] at hc
    rw [← Option.some_inj.mp hc]
    rfl
  · simp [hcx] at hc

theorem progressPcts_map_loopProg (n : Nat) (g : Nat → Nat) (l : List Nat) :
    progressPcts (l.map (fun k => loopProg n (g k))) = l.map (fun k => loopPct n (g k)) := by
  induction l with
  | nil => rfl
  | cons a l ih => simp [progressPcts, loopProg, pctOf] at ih ⊢; exact ih

theorem chunked_pcts (env : Env) (path model : String) (lang : Option String)
    (hex : env.existsF path = true) (hrun : env.splitRun = Except.ok ()) :
    ∃ rest, (rest = ([] : List ℚ) ∨ rest = [99]) ∧
      progressPcts (transcribe_chunked env path model lang).2 =
        84 :: ((List.range (okPrefixLen env.parts env.completionOrder)).map
                 (fun k => loopPct env.chunkFiles.length (k + 1))) ++ rest := by
  have hev := collectLoop_events env.parts env.chunkFiles.length env.completionOrder
    (List.replicate env.chunkFiles.length none) ⟨0, 0, 0⟩ 0
  have hloop : progressPcts (collectLoop env.parts env.chunkFiles.length env.completionOrder
      (List.replicate env.chunkFiles.length none) ⟨0, 0, 0⟩ 0).2 =
      (List.range (okPrefixLen env.parts env.completionOrder)).map
        (fun k => loopPct env.chunkFiles.length (k + 1)) := by
    rw [hev]
    have := progressPcts_map_loopProg env.chunkFiles.length (fun k => 0 + k + 1)
      (List.range (okPrefixLen env.parts env.completionOrder))
    simp only [] at this ⊢
    rw [this]
    apply List.map_congr_left
    intro k _
    congr 1
    omega
  simp only [transcribe_chunked, hrun, split_audio_ok env.existsF env.chunkFiles path hex]
  rcases hres : (collectLoop env.parts env.chunkFiles.length env.completionOrder
      (List.replicate env.chunkFiles.length none) ⟨0, 0, 0⟩ 0).1 with e | st
  · refine ⟨[], Or.inl rfl, ?_⟩
    simp only [progressPcts_append, progressPcts_submits, progressPcts_cleanup, hloop]
    simp [progressPcts, pctOf]
  · refine ⟨[99], Or.inr rfl, ?_⟩
    simp only [progressPcts_append, progressPcts_submits, progressPcts_cleanup, hloop]
    simp [progressPcts, pctOf]

theorem loopPct_lb (n m : Nat) : (85 : ℚ) ≤ loopPct n m := by
  unfold loopPct
  have h1 : (0 : ℚ) ≤ ((m : ℚ) / (n : ℚ)) * 14 := by positivity
  linarith

theorem loopPct_ub (n m : Nat) (h : m ≤ n) : loopPct n m ≤ 99 := by
  unfold loopPct
  rcases Nat.eq_zero_or_pos n with h0 | hpos
  · subst h0
    interval_cases m
    norm_num
  · have hn : (0 : ℚ) < (n : ℚ) := by exact_mod_cast hpos
    have hdiv : (m : ℚ) / (n : ℚ) ≤ 1 := by
      rw [div_le_one hn]
      exact_mod_cast h
    nlinarith

theorem loopPct_mono (n : Nat) {a b : Nat} (h : a ≤ b) : loopPct n a ≤ loopPct n b := by
  unfold loopPct
  rcases Nat.eq_zero_or_pos n with h0 | hpos
  · subst h0
    norm_num
  · have hn : (0 : ℚ) < (n : ℚ) := by exact_mod_cast hpos
    have : (a : ℚ) / (n : ℚ) ≤ (b : ℚ) / (n : ℚ) := by
      apply div_le_div_of_nonneg_right ?_ hn.le
      · exact_mod_cast h
    nlinarith

theorem pairwise_chunk_pcts (n L : Nat) (hL : L ≤ n) (rest : List ℚ)
    (hrest : rest = [] ∨ rest = [99]) :
    List.Pairwise (fun a b => a ≤ b)
      ((82 : ℚ) :: 83 :: (84 :: ((List.range L).map (fun k => loopPct n (k + 1))) ++ rest)) := by
  have hmem : ∀ x ∈ (List.range L).map (fun k => loopPct n (k + 1)),
      (85 : ℚ) ≤ x ∧ x ≤ 99 := by
    intro x hx
    obtain ⟨k, hk, hkx⟩ := List.mem_map.mp hx
    rw [← hkx]
    exact ⟨loopPct_lb n (k + 1), loopPct_ub n (k + 1)
      (by have := List.mem_range.mp hk; omega)⟩
  have hrestmem : ∀ y ∈ rest, y = (99 : ℚ) := by
    rcases hrest with h | h <;> subst h <;> simp
  have hpmap : List.Pairwise (fun a b => a ≤ b)
      ((List.range L).map (fun k => loopPct n (k + 1))) := by
    rw [List.pairwise_map]
    apply List.Pairwise.imp ?_ (List.pairwise_lt_range L)
    intro a b hab
    exact loopPct_mono n (by omega)
  have hprest : List.Pairwise (fun a b => a ≤ b) rest := by
    rcases hrest with h | h <;> subst h <;> simp
  have happ : List.Pairwise (fun a b => a ≤ b)
      (((List.range L).map (fun k => loopPct n (k + 1))) ++ rest) := by
    rw [List.pairwise_append]
    refine ⟨hpmap, hprest, ?_⟩
    intro x hx y hy
    rw [hrestmem y hy]
    exact (hmem x hx).2
  simp only [List.cons_append]
  rw [List.pairwise_cons]
  constructor
  · intro b hb
    rcases List.mem_cons.mp hb with h1 | h2
    · rw [h1]; norm_num
    · rcases List.mem_cons.mp h2 with h3 | h4
      · rw [h3]; norm_num
      · rcases List.mem_append.mp h4 with h5 | h6
        · linarith [(hmem b h5).1]
        · rw [hrestmem b h6]; norm_num
  rw [List.pairwise_cons]
  constructor
  · intro b hb
    rcases List.mem_cons.mp hb with h1 | h2
    · rw [h1]; norm_num
    · rcases List.mem_append.mp h2 with h5 | h6
      · linarith [(hmem b h5).1]
      · rw [hrestmem b h6]; norm_num
  rw [List.pairwise_cons]
  constructor
  · intro b hb
    rcases List.mem_append.mp hb with h5 | h6
    · linarith [(hmem b h5).1]
    · rw [hrestmem b h6]; norm_num
  exact happ

theorem transcribeApi_single (env : Env) (path model : String) (lang : Option String)
    (hex : env.existsF path = true) (hkey : env.hasApiKey = true)
    (hm : shouldChunk env.measure = false) :
    transcribeApi env path model lang =
      ((singleShot env path model lang).1,
       Event.progress 82 "开始语音转写..." :: (singleShot env path model lang).2) := by
  rcases hme : env.measure with e | d
  · simp [transcribeApi, hex, hkey, hme]
  · have hd : ¬ (298 < d) := by
      rw [hme] at hm
      simp only [shouldChunk] at hm
      exact of_decide_eq_false hm
    simp [transcribeApi, hex, hkey, hme, hd]

theorem transcribeApi_chunk (env : Env) (path model : String) (lang : Option String)
    (hex : env.existsF path = true) (hkey : env.hasApiKey = true)
    (d : ℚ) (hme : env.measure = Except.ok d) (hd : 298 < d) :
    transcribeApi env path model lang =
      ((transcribe_chunked env path model lang).1,
       Event.progress 82 "开始语音转写..." :: Event.progress 83 (chunkNoticeLabel d) ::
         (transcribe_chunked env path model lang).2) := by
  simp [transcribeApi, hex, hkey, hme, hd]

theorem filter_isSplit_compress (f : String → Bool) (pr : Except String (Option ℚ))
    (run : Except String Unit) (q : String) :
    ((compress_for_api f pr run q).2).filter isSplit = [] := by
  simp only [compress_for_api]
  split
  · rfl
  · split <;> rfl

theorem filter_isSplit_attempt (env : Env) (path model : String) :
    ((singleShotAttempt env path model).2.1).filter isSplit = [] := by
  have hc := filter_isSplit_compress env.existsF env.compressProbe env.compressRun path
  simp only [singleShotAttempt]
  rcases hsz : env.getsize path with e | sz
  · simp [isSplit]
  · by_cases hbig : 24 < ((sz : ℚ) / (1024 * 1024))
    · simp only [if_pos hbig]
      rcases hco : compress_for_api env.existsF env.compressProbe env.compressRun path
        with ⟨cres, cev⟩
      rw [hco] at hc
      rcases cres with ce | cp
      · rcases env.remote model path with re | rr <;>
          simp [List.filter_append, isSplit, hc]
      · rcases env.remote model cp with re | rr <;>
          simp [List.filter_append, isSplit, hc]
    · simp only [if_neg hbig]
      rcases env.remote model path with re | rr <;>
        simp [List.filter_append, isSplit]

theorem splitCall_not_in_attempt (env : Env) (path model : String) (p : String) :
    Event.splitCall p ∉ (singleShotAttempt env path model).2.1 := by
  intro hmem
  have h : Event.splitCall p ∈ ((singleShotAttempt env path model).2.1).filter isSplit :=
    List.mem_filter.mpr ⟨hmem, rfl⟩
  rw [filter_isSplit_attempt] at h
  exact (List.not_mem_nil _) h

theorem filter_isCompress_compress (f : String → Bool) (pr : Except String (Option ℚ))
    (run : Except String Unit) (q : String) :
    ((compress_for_api f pr run q).2).filter isCompress = [Event.compressCall q] := by
  simp only [compress_for_api]
  split
  · rfl
  · split <;> rfl

theorem attempt_nocompress_ok (env : Env) (path model : String) (sz : Nat)
    (resp : RemoteResponse)
    (hsz : env.getsize path = Except.ok sz) (hsmall : ¬ (24 < (sz : ℚ) / (1024 * 1024)))
    (hrem : env.remote model path = Except.ok resp) :
    singleShotAttempt env path model =
      (Except.ok (mkApiResult resp),
       ([Event.progress 85 (uploadingLabel model), Event.remoteCall model path,
         Event.progress 99 "API 转写完成"], path)) := by
  simp [singleShotAttempt, hsz, if_neg hsmall, hrem]

theorem attempt_nocompress_err (env : Env) (path model : String) (sz : Nat) (e : String)
    (hsz : env.getsize path = Except.ok sz) (hsmall : ¬ (24 < (sz : ℚ) / (1024 * 1024)))
    (hrem : env.remote model path = Except.error e) :
    singleShotAttempt env path model =
      (Except.error e,
       ([Event.progress 85 (uploadingLabel model), Event.remoteCall model path], path)) := by
  simp [singleShotAttempt, hsz, if_neg hsmall, hrem]

theorem attempt_compress_ok (env : Env) (path model : String) (sz : Nat)
    (cres : Except String String) (cev : List Event) (resp : RemoteResponse)
    (hsz : env.getsize path = Except.ok sz) (hbig : 24 < (sz : ℚ) / (1024 * 1024))
    (hco : compress_for_api env.existsF env.compressProbe env.compressRun path = (cres, cev))
    (hrem : env.remote model (usedPath cres path) = Except.ok resp) :
    singleShotAttempt env path model =
      (Except.ok (mkApiResult resp),
       (Event.progress 85 (uploadingLabel model) :: Event.progress 83 (oversizeLabel sz) ::
          (cev ++ [Event.remoteCall model (usedPath cres path), Event.progress 99 "API 转写完成"]),
        usedPath cres path)) := by
  simp only [singleShotAttempt, hsz, if_pos hbig, hco]
  rcases cres with ce | cp <;> simp [usedPath] at hrem ⊢ <;> simp [hrem]

theorem singleShot_of_ok (env : Env) (path model : String) (lang : Option String)
    (r : TranscriptionResult) (h : (singleShotAttempt env path model).1 = Except.ok r) :
    singleShot env path model lang = (Except.ok r, (singleShotAttempt env path model).2.1) := by
  simp only [singleShot, h]

theorem singleShot_of_tooLarge (env : Env) (path model : String) (lang : Option String)
    (e : String) (h : (singleShotAttempt env path model).1 = Except.error e)
    (htl : isTooLarge e = true) :
    singleShot env path model lang =
      ((transcribe_chunked env (singleShotAttempt env path model).2.2 model lang).1,
       (singleShotAttempt env path model).2.1 ++
         (transcribe_chunked env (singleShotAttempt env path model).2.2 model lang).2) := by
  simp only [singleShot, h, htl, if_pos]

theorem singleShot_of_baseline_err (env : Env) (path : String) (lang : Option String)
    (e : String) (h : (singleShotAttempt env path "whisper-1").1 = Except.error e)
    (hntl : isTooLarge e = false) :
    singleShot env path "whisper-1" lang =
      (Except.error ("OpenAI API 转写失败: " ++ e),
       (singleShotAttempt env path "whisper-1").2.1) := by
  simp [singleShot, h, hntl]

theorem singleShot_of_fallback_err (env : Env) (path model : String) (lang : Option String)
    (e e2 : String) (h : (singleShotAttempt env path model).1 = Except.error e)
    (hntl : isTooLarge e = false) (hmod : model ≠ "whisper-1")
    (hfb : env.remote "whisper-1" (singleShotAttempt env path model).2.2 = Except.error e2) :
    singleShot env path model lang =
      (Except.error ("OpenAI API 转写失败 (回退也失败): " ++ e2),
       (singleShotAttempt env path model).2.1 ++
         [Event.remoteCall "whisper-1" (singleShotAttempt env path model).2.2]) := by
  simp [singleShot, h, hntl, hmod, hfb]

theorem singleShot_of_fallback_ok (env : Env) (path model : String) (lang : Option String)
    (e : String) (resp : RemoteResponse)
    (h : (singleShotAttempt env path model).1 = Except.error e)
    (hntl : isTooLarge e = false) (hmod : model ≠ "whisper-1")
    (hfb : env.remote "whisper-1" (singleShotAttempt env path model).2.2 = Except.ok resp) :
    singleShot env path model lang =
      (Except.ok (mkFallbackResult resp),
       (singleShotAttempt env path model).2.1 ++
         [Event.remoteCall "whisper-1" (singleShotAttempt env path model).2.2]) := by
  simp [singleShot, h, hntl, hmod, hfb]

/-- C1: in a chunked batch of at least two segments in which some segment's
remote call fails, the dispatcher raises an error wrapping the failing
segment's 1-based position and the underlying message (so no partial
transcript is returned), and every existing segment file is deleted once the
batch resolves, on the failure path as on the success path. -/
theorem C1_all_or_nothing (env : Env) (path model : String) (lang : Option String)
    (hex : env.existsF path = true) (hrun : env.splitRun = Except.ok ())
    (hperm : env.completionOrder.Perm (List.range env.chunkFiles.length))
    (_hn : 2 ≤ env.chunkFiles.length)
    (hfail : ∃ i < env.chunkFiles.length, exceptOk (env.parts i) = false) :
    (∃ j m, j < env.chunkFiles.length ∧ env.parts j = Except.error m ∧
       (transcribe_chunked env path model lang).1 = Except.error (chunkFailMsg j m)) ∧
    (∀ c ∈ env.chunkFiles, env.existsF c = true →
       Event.removeFile c ∈ (transcribe_chunked env path model lang).2) :=
  ⟨chunked_fail_spec env path model lang hex hrun hperm hfail,
   chunked_cleanup env path model lang hex hrun⟩

/-- C2: a successful chunked batch assembles the transcript strictly by
segment index for every completion order: the text is the per-segment texts
in index order joined by two consecutive line breaks, the requested language
is echoed, and the segment-timing list is empty. -/
theorem C2_index_order_assembly (env : Env) (path model : String) (lang : Option String)
    (hex : env.existsF path = true) (hrun : env.splitRun = Except.ok ())
    (hperm : env.completionOrder.Perm (List.range env.chunkFiles.length))
    (hok : ∀ i < env.chunkFiles.length, exceptOk (env.parts i) = true) :
    ∃ r, (transcribe_chunked env path model lang).1 = Except.ok r ∧
      r.text = String.intercalate "\n\n"
        ((List.range env.chunkFiles.length).map (partText env.parts)) ∧
      r.language = lang ∧ r.segments = some [] :=
  ⟨_, chunked_ok_spec env path model lang hex hrun hperm hok, rfl, rfl, rfl⟩

/-- C3: remote strategy choice is strict at the 298 s threshold: a measured
duration of exactly 298 takes the single-shot path, any strictly larger
measured duration takes the chunked path. -/
theorem C3_threshold_strict (env : Env) (path model : String) (lang : Option String)
    (hex : env.existsF path = true) (hkey : env.hasApiKey = true) :
    (env.measure = Except.ok 298 →
       transcribeApi env path model lang =
         ((singleShot env path model lang).1,
          Event.progress 82 "开始语音转写..." :: (singleShot env path model lang).2)) ∧
    (∀ d : ℚ, env.measure = Except.ok d → 298 < d →
       transcribeApi env path model lang =
         ((transcribe_chunked env path model lang).1,
          Event.progress 82 "开始语音转写..." :: Event.progress 83 (chunkNoticeLabel d) ::
            (transcribe_chunked env path model lang).2)) := by
  constructor
  · intro hme
    apply transcribeApi_single env path model lang hex hkey
    simp [shouldChunk, hme]
  · intro d hme hd
    exact transcribeApi_chunk env path model lang hex hkey d hme hd

/-- C5 (amended): the finalized accumulator of a successful chunked batch is
the componentwise sum of the segments' effective prompt and completion token
counts, while its total is the sum of the totals the service actually
reported — a segment that reports no total contributes 0 to it. -/
theorem C5_usage_accumulation (env : Env) (path model : String) (lang : Option String)
    (hex : env.existsF path = true) (hrun : env.splitRun = Except.ok ())
    (hperm : env.completionOrder.Perm (List.range env.chunkFiles.length))
    (hok : ∀ i < env.chunkFiles.length, exceptOk (env.parts i) = true) :
    ∃ r, (transcribe_chunked env path model lang).1 = Except.ok r ∧
      r.usage = some (UsageInfo.totals
        { prompt_tokens := ((List.range env.chunkFiles.length).map
            (fun i => effPromptOf (partUsage env.parts i))).sum
          completion_tokens := ((List.range env.chunkFiles.length).map
            (fun i => effCompletionOf (partUsage env.parts i))).sum
          total_tokens := ((List.range env.chunkFiles.length).map
            (fun i => reportedTotalOf (partUsage env.parts i))).sum }) :=
  ⟨_, chunked_ok_spec env path model lang hex hrun hperm hok, rfl⟩

/-- C6: a single-shot failure classified as payload/content too large is not
terminal: the job escalates to the Chunk Dispatcher on the audio the attempt
was using, and the job's result is exactly the dispatcher's result, even
though the measured duration had not selected chunking. -/
theorem C6_too_large_escalates (env : Env) (path model : String) (lang : Option String)
    (hex : env.existsF path = true) (hkey : env.hasApiKey = true)
    (hm : shouldChunk env.measure = false)
    (e : String) (hfail : (singleShotAttempt env path model).1 = Except.error e)
    (htl : isTooLarge e = true) :
    transcribeApi env path model lang =
      ((transcribe_chunked env (singleShotAttempt env path model).2.2 model lang).1,
       Event.progress 82 "开始语音转写..." ::
         ((singleShotAttempt env path model).2.1 ++
           (transcribe_chunked env (singleShotAttempt env path model).2.2 model lang).2)) := by
  rw [transcribeApi_single env path model lang hex hkey hm,
      singleShot_of_tooLarge env path model lang e hfail htl]

/-- C10: when the duration-measurement block raises, the orchestrator
swallows the error and runs the single-shot path; the chunk dispatcher is
then reachable only through a payload-too-large failure of the single-shot
attempt; and an exception inside `_get_audio_duration` itself yields the
duration 0, which likewise never selects chunking. -/
theorem C10_measurement_error_single_shot (env : Env) (path model : String)
    (lang : Option String)
    (hex : env.existsF path = true) (hkey : env.hasApiKey = true)
    (e0 : String) (hm : env.measure = Except.error e0) :
    (transcribeApi env path model lang =
       ((singleShot env path model lang).1,
        Event.progress 82 "开始语音转写..." :: (singleShot env path model lang).2)) ∧
    (∀ p, Event.splitCall p ∈ (transcribeApi env path model lang).2 →
       ∃ e, (singleShotAttempt env path model).1 = Except.error e ∧ isTooLarge e = true) ∧
    (∀ e1 : String, get_audio_duration (Except.error e1) = 0 ∧
       shouldChunk (Except.ok (get_audio_duration (Except.error e1))) = false) := by
  have hsc : shouldChunk env.measure = false := by simp [shouldChunk, hm]
  have h1 := transcribeApi_single env path model lang hex hkey hsc
  refine ⟨h1, ?_, ?_⟩
  · intro p hp
    rw [h1] at hp
    rcases ha : (singleShotAttempt env path model).1 with e | r
    · by_cases htl : isTooLarge e = true
      · exact ⟨e, rfl, htl⟩
      · exfalso
        have hntl : isTooLarge e = false := by
          rcases h : isTooLarge e
          · rfl
          · exact absurd h htl
        by_cases hmod : model = "whisper-1"
        · subst hmod
          rw [singleShot_of_baseline_err env path lang e ha hntl] at hp
          rcases List.mem_cons.mp hp with h82 | hrest
          · exact Event.noConfusion h82
          · exact splitCall_not_in_attempt env path "whisper-1" p hrest
        · rcases hfb : env.remote "whisper-1" (singleShotAttempt env path model).2.2
            with e2 | resp2
          · rw [singleShot_of_fallback_err env path model lang e e2 ha hntl hmod hfb] at hp
            rcases List.mem_cons.mp hp with h82 | hrest
            · exact Event.noConfusion h82
            · rcases List.mem_append.mp hrest with hin | hone
              · exact splitCall_not_in_attempt env path model p hin
              · simp only [List.mem_singleton] at hone
                exact Event.noConfusion hone
          · rw [singleShot_of_fallback_ok env path model lang e resp2 ha hntl hmod hfb] at hp
            rcases List.mem_cons.mp hp with h82 | hrest
            · exact Event.noConfusion h82
            · rcases List.mem_append.mp hrest with hin | hone
              · exact splitCall_not_in_attempt env path model p hin
              · simp only [List.mem_singleton] at hone
                exact Event.noConfusion hone
    · exfalso
      rw [singleShot_of_ok env path model lang r ha] at hp
      rcases List.mem_cons.mp hp with h82 | hrest
      · exact Event.noConfusion h82
      · exact splitCall_not_in_attempt env path model p hrest
  · intro e1
    exact ⟨rfl, rfl⟩

/-- C4 (amended): when a single-shot primary call fails with an error not
classified as payload-too-large and the configured model is not `whisper-1`,
exactly one retry against `whisper-1` is made; if it also fails, the job ends
with one consolidated error that carries the fallback model's failure reason
(the original model's failure reason is only logged, not included). -/
theorem C4_fallback_consolidated_error (env : Env) (path model : String)
    (lang : Option String) (sz : Nat) (e e2 : String)
    (hex : env.existsF path = true) (hkey : env.hasApiKey = true)
    (hm : shouldChunk env.measure = false)
    (hsz : env.getsize path = Except.ok sz)
    (hsmall : ¬ (24 < (sz : ℚ) / (1024 * 1024)))
    (hmod : model ≠ "whisper-1")
    (hrem : env.remote model path = Except.error e) (hntl : isTooLarge e = false)
    (hfb : env.remote "whisper-1" path = Except.error e2) :
    transcribeApi env path model lang =
      (Except.error ("OpenAI API 转写失败 (回退也失败): " ++ e2),
       [Event.progress 82 "开始语音转写...", Event.progress 85 (uploadingLabel model),
        Event.remoteCall model path, Event.remoteCall "whisper-1" path]) := by
  have ha := attempt_nocompress_err env path model sz e hsz hsmall hrem
  rw [transcribeApi_single env path model lang hex hkey hm,
      singleShot_of_fallback_err env path model lang e e2 (by rw [ha]) hntl hmod
        (by rw [ha]; exact hfb)]
  rw [ha]
  simp

/-- C7 (amended): when the configured model already is `whisper-1` and the
single call fails with an error not classified as payload-too-large, no
second transcription attempt is made — exactly one remote call is recorded —
and the job terminates with a failure. -/
theorem C7_baseline_terminal (env : Env) (path : String) (lang : Option String)
    (sz : Nat) (e : String)
    (hex : env.existsF path = true) (hkey : env.hasApiKey = true)
    (hm : shouldChunk env.measure = false)
    (hsz : env.getsize path = Except.ok sz)
    (hsmall : ¬ (24 < (sz : ℚ) / (1024 * 1024)))
    (hrem : env.remote "whisper-1" path = Except.error e)
    (hntl : isTooLarge e = false) :
    transcribeApi env path "whisper-1" lang =
      (Except.error ("OpenAI API 转写失败: " ++ e),
       [Event.progress 82 "开始语音转写...", Event.progress 85 (uploadingLabel "whisper-1"),
        Event.remoteCall "whisper-1" path]) ∧
    transcriptionAttempts (transcribeApi env path "whisper-1" lang).2 = 1 := by
  have ha := attempt_nocompress_err env path "whisper-1" sz e hsz hsmall hrem
  have h1 : transcribeApi env path "whisper-1" lang =
      (Except.error ("OpenAI API 转写失败: " ++ e),
       [Event.progress 82 "开始语音转写...", Event.progress 85 (uploadingLabel "whisper-1"),
        Event.remoteCall "whisper-1" path]) := by
    rw [transcribeApi_single env path "whisper-1" lang hex hkey hm,
        singleShot_of_baseline_err env path lang e (by rw [ha]) hntl]
    rw [ha]
  refine ⟨h1, ?_⟩
  rw [h1]
  rfl

/-- C8 (amended): a single-shot input over the 24 MB limit invokes the
compression collaborator exactly once, before the remote call; the remote
call then receives the path the compression step produced — the compressed
path when compression succeeds, the original path (error swallowed) when it
fails. -/
theorem C8_compression_before_upload (env : Env) (path model : String)
    (lang : Option String) (sz : Nat)
    (cres : Except String String) (cev : List Event) (resp : RemoteResponse)
    (hex : env.existsF path = true) (hkey : env.hasApiKey = true)
    (hm : shouldChunk env.measure = false)
    (hsz : env.getsize path = Except.ok sz) (hbig : 24 < (sz : ℚ) / (1024 * 1024))
    (hco : compress_for_api env.existsF env.compressProbe env.compressRun path = (cres, cev))
    (hrem : env.remote model (usedPath cres path) = Except.ok resp) :
    transcribeApi env path model lang =
      (Except.ok (mkApiResult resp),
       Event.progress 82 "开始语音转写..." :: Event.progress 85 (uploadingLabel model) ::
         Event.progress 83 (oversizeLabel sz) ::
         (cev ++ [Event.remoteCall model (usedPath cres path),
                  Event.progress 99 "API 转写完成"])) ∧
    ((transcribeApi env path model lang).2).filter isCompress = [Event.compressCall path] := by
  have ha := attempt_compress_ok env path model sz cres cev resp hsz hbig hco hrem
  have h1 : transcribeApi env path model lang =
      (Except.ok (mkApiResult resp),
       Event.progress 82 "开始语音转写..." :: Event.progress 85 (uploadingLabel model) ::
         Event.progress 83 (oversizeLabel sz) ::
         (cev ++ [Event.remoteCall model (usedPath cres path),
                  Event.progress 99 "API 转写完成"])) := by
    rw [transcribeApi_single env path model lang hex hkey hm,
        singleShot_of_ok env path model lang (mkApiResult resp) (by rw [ha])]
    rw [ha]
  refine ⟨h1, ?_⟩
  rw [h1]
  have hcf := filter_isCompress_compress env.existsF env.compressProbe env.compressRun path
  rw [hco] at hcf
  simp [List.filter_append, isCompress, hcf]

theorem progressPcts_cons_progress (q : ℚ) (l : String) (tr : List Event) :
    progressPcts (Event.progress q l :: tr) = q :: progressPcts tr := rfl

/-- C9 (amended): the reported progress percentages never decrease on the
duration-triggered chunked path (for every completion order, also when the
batch fails) and on the single-shot path when no size-triggered compression
occurs and no payload-too-large recovery is entered; the compression path
and the chunked recovery path do emit decreasing percentages. -/
theorem C9_progress_monotone (env : Env) (path model : String) (lang : Option String)
    (hex : env.existsF path = true) (hkey : env.hasApiKey = true) :
    (∀ d : ℚ, env.measure = Except.ok d → 298 < d →
       env.splitRun = Except.ok () →
       env.completionOrder.Perm (List.range env.chunkFiles.length) →
       List.Pairwise (fun a b => a ≤ b) (progressPcts (transcribeApi env path model lang).2)) ∧
    (shouldChunk env.measure = false →
       ∀ sz, env.getsize path = Except.ok sz → ¬ (24 < (sz : ℚ) / (1024 * 1024)) →
       (∀ e, env.remote model path = Except.error e → isTooLarge e = false) →
       List.Pairwise (fun a b => a ≤ b) (progressPcts (transcribeApi env path model lang).2)) := by
  constructor
  · intro d hme hd hrun hperm
    rw [transcribeApi_chunk env path model lang hex hkey d hme hd]
    obtain ⟨rest, hrest, hpc⟩ := chunked_pcts env path model lang hex hrun
    have hL : okPrefixLen env.parts env.completionOrder ≤ env.chunkFiles.length := by
      have h1 := okPrefixLen_le env.parts env.completionOrder
      have h2 := hperm.length_eq
      rw [List.length_range] at h2
      omega
    simp only [progressPcts_cons_progress]
    rw [hpc]
    exact pairwise_chunk_pcts env.chunkFiles.length
      (okPrefixLen env.parts env.completionOrder) hL rest hrest
  · intro hsc sz hsz hsmall hnotl
    rw [transcribeApi_single env path model lang hex hkey hsc]
    rcases hre : env.remote model path with e | resp
    · have hntl := hnotl e hre
      have ha := attempt_nocompress_err env path model sz e hsz hsmall hre
      by_cases hmod : model = "whisper-1"
      · subst hmod
        rw [singleShot_of_baseline_err env path lang e (by rw [ha]) hntl]
        rw [ha]
        norm_num [progressPcts, pctOf, List.pairwise_cons, List.filterMap]
      · rcases hfb : env.remote "whisper-1" (singleShotAttempt env path model).2.2
          with e2 | resp2
        · rw [singleShot_of_fallback_err env path model lang e e2 (by rw [ha]) hntl hmod hfb]
          rw [ha]
          norm_num [progressPcts, pctOf, List.pairwise_cons, List.filterMap]
        · rw [singleShot_of_fallback_ok env path model lang e resp2 (by rw [ha]) hntl hmod hfb]
          rw [ha]
          norm_num [progressPcts, pctOf, List.pairwise_cons, List.filterMap]
    · have ha := attempt_nocompress_ok env path model sz resp hsz hsmall hre
      rw [singleShot_of_ok env path model lang (mkApiResult resp) (by rw [ha])]
      rw [ha]
      norm_num [progressPcts, pctOf, List.pairwise_cons, List.filterMap]

/-- C1 witness. -/
theorem C1_witness :
    (2 ≤ envC1.chunkFiles.length) ∧
    (∃ i < envC1.chunkFiles.length, exceptOk (envC1.parts i) = false) ∧
    ((∃ j m, j < envC1.chunkFiles.length ∧ envC1.parts j = Except.error m ∧
        (transcribe_chunked envC1 "p.mp3" "whisper-1" none).1 = Except.error (chunkFailMsg j m)) ∧
     (∀ c ∈ envC1.chunkFiles, envC1.existsF c = true →
        Event.removeFile c ∈ (transcribe_chunked envC1 "p.mp3" "whisper-1" none).2)) :=
  ⟨by decide, ⟨0, by decide, by decide⟩,
   C1_all_or_nothing envC1 "p.mp3" "whisper-1" none rfl rfl (by decide) (by decide)
     ⟨0, by decide, by decide⟩⟩

/-- C2 witness. -/
theorem C2_witness :
    ∃ r, (transcribe_chunked envC2 "p.mp3" "gpt-4o-transcribe" (some "zh")).1 = Except.ok r ∧
      r.text = String.intercalate "\n\n"
        ((List.range envC2.chunkFiles.length).map (partText envC2.parts)) ∧
      r.language = some "zh" ∧ r.segments = some [] :=
  C2_index_order_assembly envC2 "p.mp3" "gpt-4o-transcribe" (some "zh") rfl rfl
    (by decide) (by decide)

unseal Rat.add Rat.mul Rat.inv in
/-- C3 witness. -/
theorem C3_witness :
    (transcribeApi envC3a "a.mp3" "whisper-1" none =
       ((singleShot envC3a "a.mp3" "whisper-1" none).1,
        Event.progress 82 "开始语音转写..." :: (singleShot envC3a "a.mp3" "whisper-1" none).2)) ∧
    (transcribeApi envC3b "a.mp3" "whisper-1" none =
       ((transcribe_chunked envC3b "a.mp3" "whisper-1" none).1,
        Event.progress 82 "开始语音转写..." ::
          Event.progress 83 (chunkNoticeLabel (2981 / 10)) ::
          (transcribe_chunked envC3b "a.mp3" "whisper-1" none).2)) :=
  ⟨(C3_threshold_strict envC3a "a.mp3" "whisper-1" none rfl rfl).1 rfl,
   (C3_threshold_strict envC3b "a.mp3" "whisper-1" none rfl rfl).2 (2981 / 10) rfl (by decide)⟩

unseal Rat.add Rat.mul Rat.inv in
/-- C4 counterexample: the consolidated error of a failed fallback carries the
fallback model's failure reason but not the original model's failure reason,
refuting the claim that it carries both. -/
theorem C4_counterexample :
    (transcribeApi envC4 "a.mp3" "gpt-4o-transcribe" none).1 =
      Except.error ("OpenAI API 转写失败 (回退也失败): FALLBACK_BOOM") ∧
    strContains "OpenAI API 转写失败 (回退也失败): FALLBACK_BOOM" "FALLBACK_BOOM" = true ∧
    strContains "OpenAI API 转写失败 (回退也失败): FALLBACK_BOOM" "PRIMARY_BOOM" = false := by
  refine ⟨by decide, by decide, by decide⟩

unseal Rat.add Rat.mul Rat.inv in
/-- C4 witness. -/
theorem C4_witness :
    transcribeApi envC4 "a.mp3" "gpt-4o-transcribe" none =
      (Except.error ("OpenAI API 转写失败 (回退也失败): " ++ "FALLBACK_BOOM"),
       [Event.progress 82 "开始语音转写...",
        Event.progress 85 (uploadingLabel "gpt-4o-transcribe"),
        Event.remoteCall "gpt-4o-transcribe" "a.mp3",
        Event.remoteCall "whisper-1" "a.mp3"]) :=
  C4_fallback_consolidated_error envC4 "a.mp3" "gpt-4o-transcribe" none 1000000
    "PRIMARY_BOOM" "FALLBACK_BOOM" rfl rfl (by decide) rfl (by decide) (by decide)
    rfl (by decide) rfl

unseal Rat.add Rat.mul Rat.inv in
/-- C5 counterexample: with segment usages `{prompt:10, completion:5}` and
`{prompt:7, completion:3}` and no reported totals, the accumulator finalizes
at `{prompt:17, completion:8, total:0}`, not `total = 25`, refuting the
claimed `total = prompt + completion` behaviour. -/
theorem C5_counterexample :
    (transcribe_chunked envC5 "p.mp3" "whisper-1" none).1 =
      Except.ok { text := "A\n\nB", language := none, duration := none, segments := some [],
                  usage := some (UsageInfo.totals ⟨17, 8, 0⟩) } ∧
    (⟨17, 8, 0⟩ : UsageTotals) ≠ ⟨17, 8, 25⟩ := by
  refine ⟨by decide, by decide⟩

/-- C5 witness. -/
theorem C5_witness :
    ∃ r, (transcribe_chunked envC5w "p.mp3" "whisper-1" none).1 = Except.ok r ∧
      r.usage = some (UsageInfo.totals
        { prompt_tokens := ((List.range envC5w.chunkFiles.length).map
            (fun i => effPromptOf (partUsage envC5w.parts i))).sum
          completion_tokens := ((List.range envC5w.chunkFiles.length).map
            (fun i => effCompletionOf (partUsage envC5w.parts i))).sum
          total_tokens := ((List.range envC5w.chunkFiles.length).map
            (fun i => reportedTotalOf (partUsage envC5w.parts i))).sum }) :=
  C5_usage_accumulation envC5w "p.mp3" "whisper-1" none rfl rfl (by decide) (by decide)

unseal Rat.add Rat.mul Rat.inv in
/-- C6 witness. -/
theorem C6_witness :
    transcribeApi envC6 "a.mp3" "gpt-4o-transcribe" none =
      ((transcribe_chunked envC6 (singleShotAttempt envC6 "a.mp3" "gpt-4o-transcribe").2.2
          "gpt-4o-transcribe" none).1,
       Event.progress 82 "开始语音转写..." ::
         ((singleShotAttempt envC6 "a.mp3" "gpt-4o-transcribe").2.1 ++
           (transcribe_chunked envC6 (singleShotAttempt envC6 "a.mp3" "gpt-4o-transcribe").2.2
             "gpt-4o-transcribe" none).2)) :=
  C6_too_large_escalates envC6 "a.mp3" "gpt-4o-transcribe" none rfl rfl (by decide)
    "input_too_large: request rejected" (by decide) (by decide)

unseal Rat.add Rat.mul Rat.inv in
/-- C7 counterexample: when the single `whisper-1` call fails with a
payload-too-large error, the job does not terminate with a failure after one
recorded call — it escalates to chunked mode, records three transcription
attempts, and succeeds — refuting the claim for this class of failures. -/
theorem C7_counterexample :
    exceptOk (transcribeApi envC7 "a.mp3" "whisper-1" none).1 = true ∧
    transcriptionAttempts (transcribeApi envC7 "a.mp3" "whisper-1" none).2 = 3 := by
  refine ⟨by decide, by decide⟩

unseal Rat.add Rat.mul Rat.inv in
/-- C7 witness. -/
theorem C7_witness :
    (transcribeApi envC7w "a.mp3" "whisper-1" none =
       (Except.error ("OpenAI API 转写失败: " ++ "SERVICE_DOWN"),
        [Event.progress 82 "开始语音转写...",
         Event.progress 85 (uploadingLabel "whisper-1"),
         Event.remoteCall "whisper-1" "a.mp3"])) ∧
    transcriptionAttempts (transcribeApi envC7w "a.mp3" "whisper-1" none).2 = 1 :=
  C7_baseline_terminal envC7w "a.mp3" none 1000000 "SERVICE_DOWN" rfl rfl (by decide)
    rfl (by decide) rfl (by decide)

unseal Rat.add Rat.mul Rat.inv in
/-- C8 counterexample: compression is invoked, but because it fails the
remote call receives the original 30 MB path rather than the compressed
unit's path, refuting the claim as universally stated. -/
theorem C8_counterexample :
    Event.compressCall "big.mp3" ∈ (transcribeApi envC8 "big.mp3" "gpt-4o-transcribe" none).2 ∧
    Event.remoteCall "gpt-4o-transcribe" "big.mp3" ∈
      (transcribeApi envC8 "big.mp3" "gpt-4o-transcribe" none).2 ∧
    Event.remoteCall "gpt-4o-transcribe" "big_compressed.mp3" ∉
      (transcribeApi envC8 "big.mp3" "gpt-4o-transcribe" none).2 := by
  refine ⟨by decide, by decide, by decide⟩

unseal Rat.add Rat.mul Rat.inv in
/-- C8 witness. -/
theorem C8_witness :
    (transcribeApi envC8w "big.mp3" "gpt-4o-transcribe" none =
       (Except.ok (mkApiResult { text := "T", language := none, duration := none, usage := none }),
        Event.progress 82 "开始语音转写..." ::
          Event.progress 85 (uploadingLabel "gpt-4o-transcribe") ::
          Event.progress 83 (oversizeLabel 31457280) ::
          ((compress_for_api envC8w.existsF envC8w.compressProbe envC8w.compressRun "big.mp3").2 ++
           [Event.remoteCall "gpt-4o-transcribe"
              (usedPath (Except.ok "big_compressed.mp3") "big.mp3"),
            Event.progress 99 "API 转写完成"]))) ∧
    ((transcribeApi envC8w "big.mp3" "gpt-4o-transcribe" none).2).filter isCompress =
      [Event.compressCall "big.mp3"] :=
  C8_compression_before_upload envC8w "big.mp3" "gpt-4o-transcribe" none 31457280
    (Except.ok "big_compressed.mp3")
    (compress_for_api envC8w.existsF envC8w.compressProbe envC8w.compressRun "big.mp3").2
    { text := "T", language := none, duration := none, usage := none }
    rfl rfl (by decide) rfl (by decide) (by decide) rfl

unseal Rat.add Rat.mul Rat.inv in
/-- C9 counterexample: on the size-triggered compression path the progress
callback reports 85, then 83, then 62 — a decreasing sequence — refuting the
claim that percentages never decrease within one job. -/
theorem C9_counterexample :
    progressPcts (transcribeApi envC9 "big.mp3" "gpt-4o-transcribe" none).2 =
      [82, 85, 83, 62, 99] ∧
    ¬ List.Pairwise (fun a b => a ≤ b)
        (progressPcts (transcribeApi envC9 "big.mp3" "gpt-4o-transcribe" none).2) := by
  refine ⟨by decide, by decide⟩

unseal Rat.add Rat.mul Rat.inv in
/-- C9 witness. -/
theorem C9_witness :
    List.Pairwise (fun a b => a ≤ b)
      (progressPcts (transcribeApi envC9a "a.mp3" "gpt-4o-transcribe" none).2) ∧
    List.Pairwise (fun a b => a ≤ b)
      (progressPcts (transcribeApi envC9b "a.mp3" "gpt-4o-transcribe" none).2) :=
  ⟨(C9_progress_monotone envC9a "a.mp3" "gpt-4o-transcribe" none rfl rfl).1 300 rfl
     (by decide) rfl (by decide),
   (C9_progress_monotone envC9b "a.mp3" "gpt-4o-transcribe" none rfl rfl).2 (by decide)
     1000000 rfl (by decide) (fun e he => nomatch he)⟩

/-- C10 witness. -/
theorem C10_witness :
    (transcribeApi envC10 "a.mp3" "gpt-4o-transcribe" none =
       ((singleShot envC10 "a.mp3" "gpt-4o-transcribe" none).1,
        Event.progress 82 "开始语音转写..." ::
          (singleShot envC10 "a.mp3" "gpt-4o-transcribe" none).2)) ∧
    (∀ p, Event.splitCall p ∈ (transcribeApi envC10 "a.mp3" "gpt-4o-transcribe" none).2 →
       ∃ e, (singleShotAttempt envC10 "a.mp3" "gpt-4o-transcribe").1 = Except.error e ∧
         isTooLarge e = true) ∧
    (∀ e1 : String, get_audio_duration (Except.error e1) = 0 ∧
       shouldChunk (Except.ok (get_audio_duration (Except.error e1))) = false) :=
  C10_measurement_error_single_shot envC10 "a.mp3" "gpt-4o-transcribe" none rfl rfl
    "ffprobe failed" rfl

end Bili
